import Mathlib

/-!
# Verification of the briancline intake form's client and API logic

Shallow embedding of the repository's three source files:

* the client controllers (`VoiceRecorder`, `FileUploader`) and the form
  submit handler, found in the source document `BACKEND_FIXED.md`;
* the storage API handler `api/upload.js`;
* the submission API handler `api/submit.js` (`formatEmailBody`, `escapeHtml`).

JavaScript strings are modelled as Lean `String` where only equality and
concatenation matter, and as `List Char` where character-level reasoning is
needed (splitting and HTML escaping).  Network calls are modelled by oracle
parameters carrying the response each call would receive; a `fetch` that
throws is the response `Option.none`, exactly as the `catch` blocks of the
source turn exceptions into "no URL".  DOM reads/writes are modelled as
fields of the state (labels, counters); the DOM elements are assumed present,
as they are in the page the script runs against.
-/

namespace Intake

/-- A selected file as the `FileUploader` sees it: an identity and the
declared MIME type string (`file.type` in the source). -/
structure JFile where
  id : Nat
  type : String
deriving DecidableEq, Repr

/-- State of the `FileUploader` class: the ordered selection `this.files` and
the parallel list `this.uploadedUrls`. -/
structure FileUploader where
  files : List JFile
  uploadedUrls : List String
deriving DecidableEq, Repr

/-- `new FileUploader()`: both lists start empty. -/
def FileUploader.init : FileUploader := ⟨[], []⟩

/-- One iteration of the `addFiles` loop:
`if (file.type.startsWith('image/') && this.files.length < 10) this.files.push(file)`. -/
def addFilesStep (fs : List JFile) (f : JFile) : List JFile :=
  if f.type.startsWith "image/" ∧ fs.length < 10 then fs ++ [f] else fs

/-- `FileUploader.addFiles(newFiles)`: fold the admission step over the
candidates (the trailing `updateUI()` touches only the DOM). -/
def FileUploader.addFiles (st : FileUploader) (newFiles : List JFile) : FileUploader :=
  { st with files := newFiles.foldl addFilesStep st.files }

/-- JavaScript `Array.prototype.splice(i, 1)`: the start index is normalised
to `max(length + i, 0)` when negative and clamped to `length` otherwise, then
one element is removed there (none when the index lands at the end). -/
def spliceRemoveOne (l : List α) (i : Int) : List α :=
  let k : Nat := if i < 0 then (l.length + i).toNat else min i.toNat l.length
  l.take k ++ l.drop (k + 1)

/-- `FileUploader.removeFile(index)`: `this.files.splice(index, 1)` and
`this.uploadedUrls.splice(index, 1)` (the `updateUI()` call is DOM-only). -/
def FileUploader.removeFile (st : FileUploader) (i : Int) : FileUploader :=
  ⟨spliceRemoveOne st.files i, spliceRemoveOne st.uploadedUrls i⟩

/-- The URLs collected by `FileUploader.uploadAll()`.  The loop posts every
file in order; `responses` lists, per posted file, the outcome of its
request: `some url` when the response was `ok` and its JSON carried `url`,
`none` when the response was not `ok` or `fetch` threw (the `catch` block
swallows the exception and the loop continues).  Only successful responses
push a URL, in file order. -/
def uploadAllUrls (files : List JFile) (responses : List (Option String)) : List String :=
  (files.zip responses).filterMap (fun p => p.2)

/-- The requests issued by `uploadAll()`: one POST per selected file, in
order, regardless of earlier failures (no abort). -/
def uploadAllRequests (files : List JFile) : List JFile := files

/-- `FileUploader.uploadAll()` as a state transformer: `this.uploadedUrls`
is reset and then accumulates exactly the successful URLs; the final list is
also the return value. -/
def FileUploader.uploadAll (st : FileUploader) (responses : List (Option String)) :
    FileUploader × List String :=
  let urls := uploadAllUrls st.files responses
  ({ st with uploadedUrls := urls }, urls)

/-! ## Helper lemmas about lists -/

theorem zip_filterMap_snd (fs : List JFile) (rs : List (Option String))
    (h : rs.length = fs.length) :
    (fs.zip rs).filterMap (fun p => p.2) = rs.filterMap id := by
  induction fs generalizing rs with
  | nil => cases rs with
    | nil => rfl
    | cons r rs => simp at h
  | cons f fs ih =>
    cases rs with
    | nil => simp at h
    | cons r rs =>
      simp only [List.length_cons, Nat.succ_inj] at h
      cases r with
      | none => simpa using ih rs h
      | some u => simpa using ih rs h

theorem filterMap_id_all_some (rs : List (Option String))
    (h : ∀ r ∈ rs, r.isSome) : (rs.filterMap id).length = rs.length := by
  induction rs with
  | nil => rfl
  | cons r rs ih =>
    cases r with
    | none => exact absurd (h none (by simp)) (by simp)
    | some u =>
      simp only [List.filterMap_cons, id_eq, List.length_cons]
      rw [ih (fun r hr => h r (by simp [hr]))]

theorem take_append_drop_eraseIdx (l : List α) (k : Nat) :
    l.take k ++ l.drop (k + 1) = l.eraseIdx k := by
  induction l generalizing k with
  | nil => simp
  | cons a l ih =>
    cases k with
    | zero => simp [List.eraseIdx]
    | succ k => simp [List.eraseIdx, ih k]

theorem eraseIdx_of_le (l : List α) (k : Nat) (h : l.length ≤ k) :
    l.eraseIdx k = l := by
  induction l generalizing k with
  | nil => simp
  | cons a l ih =>
    cases k with
    | zero => simp at h
    | succ k =>
      simp only [List.length_cons, Nat.succ_le_succ_iff] at h
      simp [List.eraseIdx, ih k h]

theorem spliceRemoveOne_nat (l : List α) (n : Nat) :
    spliceRemoveOne l (n : Int) = l.eraseIdx n := by
  unfold spliceRemoveOne
  have hnn : ¬ ((n : Int) < 0) := by omega
  simp only [hnn, if_false, Int.toNat_ofNat]
  rcases Nat.lt_or_ge n l.length with h | h
  · rw [Nat.min_eq_left (Nat.le_of_lt h), take_append_drop_eraseIdx]
  · rw [Nat.min_eq_right h, take_append_drop_eraseIdx,
      eraseIdx_of_le l l.length (Nat.le_refl _), eraseIdx_of_le l n h]

theorem uploadAllUrls_map_oracle (l : List JFile) (f : JFile → Option String) :
    uploadAllUrls l (l.map f) = l.filterMap f := by
  unfold uploadAllUrls
  induction l with
  | nil => rfl
  | cons a l ih => cases h : f a <;> simp [List.filterMap_cons, h, ih]

/-! ## Claims about the `FileUploader` -/

/-- The invariant of the image selection: never more than 10 entries, all
with an `image/` MIME type. -/
def uploaderInv (l : List JFile) : Prop :=
  l.length ≤ 10 ∧ ∀ f ∈ l, f.type.startsWith "image/" = true

theorem addFilesStep_inv (l : List JFile) (f : JFile) (h : uploaderInv l) :
    uploaderInv (addFilesStep l f) := by
  unfold addFilesStep
  by_cases hc : f.type.startsWith "image/" = true ∧ l.length < 10
  · rw [if_pos hc]
    refine ⟨by simp; omega, ?_⟩
    intro g hg
    rcases List.mem_append.mp hg with hg | hg
    · exact h.2 g hg
    · rw [List.mem_singleton.mp hg]; exact hc.1
  · rw [if_neg hc]; exact h

theorem addFiles_files (st : FileUploader) (b : List JFile) :
    (st.addFiles b).files = b.foldl addFilesStep st.files := rfl

theorem foldl_addFilesStep_inv (batch : List JFile) (l : List JFile)
    (h : uploaderInv l) : uploaderInv (batch.foldl addFilesStep l) := by
  induction batch generalizing l with
  | nil => exact h
  | cons f batch ih =>
    rw [List.foldl_cons]
    exact ih _ (addFilesStep_inv l f h)

theorem foldl_addFiles_inv (batches : List (List JFile)) (st : FileUploader)
    (h : uploaderInv st.files) :
    uploaderInv (batches.foldl FileUploader.addFiles st).files := by
  induction batches generalizing st with
  | nil => exact h
  | cons b bs ih =>
    rw [List.foldl_cons]
    refine ih _ ?_
    rw [addFiles_files]
    exact foldl_addFilesStep_inv b st.files h

/-- **C2.** For every sequence of `addFiles` calls starting from a fresh
`FileUploader`, the selection never exceeds 10 entries and every retained
entry has a MIME type beginning with `image/`; candidates that fail either
test are dropped by the admission step with no error (the step is a total
function that simply leaves the state unchanged for them). -/
theorem addFiles_cap_and_image_only (batches : List (List JFile)) :
    (batches.foldl FileUploader.addFiles FileUploader.init).files.length ≤ 10 ∧
    ∀ f ∈ (batches.foldl FileUploader.addFiles FileUploader.init).files,
      f.type.startsWith "image/" = true :=
  foldl_addFiles_inv batches FileUploader.init ⟨by simp [FileUploader.init], by simp [FileUploader.init]⟩

/-- **C1.** If `uploadAll()` runs over `N` selected files and the storage
endpoint fails for exactly one of them (response list `A ++ none :: B` with
every entry of `A` and `B` a success), then the returned URL list is the
in-order concatenation of the successes before and after the failure — the
failed file contributes no URL, no later upload is skipped (one request per
file is still issued), and the result has length `N - 1`.  No exception
reaches the caller: the embedding of the loop is a total function, matching
the `catch` block that swallows per-file errors. -/
theorem uploadAll_single_failure (files : List JFile) (A B : List (Option String))
    (hA : ∀ r ∈ A, r.isSome) (hB : ∀ r ∈ B, r.isSome)
    (hlen : (A ++ none :: B).length = files.length) :
    uploadAllUrls files (A ++ none :: B) = A.filterMap id ++ B.filterMap id ∧
    (uploadAllUrls files (A ++ none :: B)).length = files.length - 1 ∧
    uploadAllRequests files = files := by
  have h1 : uploadAllUrls files (A ++ none :: B) = (A ++ none :: B).filterMap id :=
    zip_filterMap_snd files _ hlen
  have h2 : (A ++ none :: B).filterMap id = A.filterMap id ++ B.filterMap id := by
    simp
  refine ⟨h1.trans h2, ?_, rfl⟩
  rw [h1, h2, List.length_append, filterMap_id_all_some A hA, filterMap_id_all_some B hB]
  simp only [List.length_append, List.length_cons] at hlen
  omega

/-- Witness for C1 at a concrete input: three files, the middle upload
fails, the result is the two surviving URLs in order. -/
theorem uploadAll_single_failure_witness :
    uploadAllUrls [⟨0, "image/png"⟩, ⟨1, "image/jpeg"⟩, ⟨2, "image/gif"⟩]
      [some "u0", none, some "u2"] = ["u0", "u2"] ∧
    (uploadAllUrls [⟨0, "image/png"⟩, ⟨1, "image/jpeg"⟩, ⟨2, "image/gif"⟩]
      [some "u0", none, some "u2"]).length = 3 - 1 := by
  have h := uploadAll_single_failure
    [⟨0, "image/png"⟩, ⟨1, "image/jpeg"⟩, ⟨2, "image/gif"⟩]
    [some "u0"] [some "u2"] (by decide) (by decide) (by decide)
  exact ⟨h.1, h.2.1⟩

/-- **C3.** `removeFile(i)` removes the file at index `i` and the uploaded
URL at the same index (each by one `splice(i, 1)`), preserving the order of
the remaining entries of both lists; an index past the end of both lists
leaves the state unchanged (and the embedding is total: no crash); and after
a `removeFile(i)` an `uploadAll()` — whose per-file responses come from the
storage oracle — returns exactly the in-order successes of the remaining
files, so the removed file's URL `u` never appears (given that no remaining
file's upload yields that same URL). -/
theorem removeFile_then_uploadAll (st : FileUploader) (i : Nat)
    (hi : i < st.files.length) (oracle : JFile → Option String) (u : String)
    (hu : oracle (st.files.get ⟨i, hi⟩) = some u)
    (hothers : ∀ g ∈ st.files.eraseIdx i, oracle g ≠ some u) :
    (st.removeFile (i : Int)).files = st.files.eraseIdx i ∧
    (st.removeFile (i : Int)).uploadedUrls = st.uploadedUrls.eraseIdx i ∧
    (∀ m : Nat, st.files.length ≤ m → st.uploadedUrls.length ≤ m →
      st.removeFile (m : Int) = st) ∧
    uploadAllUrls (st.removeFile (i : Int)).files
        ((st.removeFile (i : Int)).files.map oracle) =
      (st.files.eraseIdx i).filterMap oracle ∧
    u ∉ uploadAllUrls (st.removeFile (i : Int)).files
        ((st.removeFile (i : Int)).files.map oracle) := by
  have hfiles : (st.removeFile (i : Int)).files = st.files.eraseIdx i :=
    spliceRemoveOne_nat st.files i
  have hurls : (st.removeFile (i : Int)).uploadedUrls = st.uploadedUrls.eraseIdx i :=
    spliceRemoveOne_nat st.uploadedUrls i
  have hupload : uploadAllUrls (st.removeFile (i : Int)).files
      ((st.removeFile (i : Int)).files.map oracle) =
      (st.files.eraseIdx i).filterMap oracle := by
    rw [hfiles, uploadAllUrls_map_oracle]
  refine ⟨hfiles, hurls, ?_, hupload, ?_⟩
  · intro m h1 h2
    cases st with
    | mk fs us =>
      simp only [FileUploader.removeFile, spliceRemoveOne_nat]
      simp only at h1 h2
      rw [eraseIdx_of_le fs m h1, eraseIdx_of_le us m h2]
  · rw [hupload]
    intro hmem
    rcases List.mem_filterMap.mp hmem with ⟨g, hg, hgu⟩
    exact hothers g hg hgu

/-- Witness for C3 at a concrete input: a selection of three files whose URL
list is shorter (as after a partially failed `uploadAll`), removing index 1. -/
theorem removeFile_then_uploadAll_witness :
    (1 < 3 ∧
      (FileUploader.removeFile ⟨[⟨0, "image/png"⟩, ⟨1, "image/png"⟩, ⟨2, "image/png"⟩],
        ["v0", "v1"]⟩ ((1 : Nat) : Int)).files = [⟨0, "image/png"⟩, ⟨2, "image/png"⟩]) ∧
    "1" ∉ uploadAllUrls
      (FileUploader.removeFile ⟨[⟨0, "image/png"⟩, ⟨1, "image/png"⟩, ⟨2, "image/png"⟩],
        ["v0", "v1"]⟩ ((1 : Nat) : Int)).files
      ((FileUploader.removeFile ⟨[⟨0, "image/png"⟩, ⟨1, "image/png"⟩, ⟨2, "image/png"⟩],
        ["v0", "v1"]⟩ ((1 : Nat) : Int)).files.map (fun g => some (Nat.repr g.id))) := by
  have h := removeFile_then_uploadAll
    ⟨[⟨0, "image/png"⟩, ⟨1, "image/png"⟩, ⟨2, "image/png"⟩], ["v0", "v1"]⟩
    1 (by decide) (fun g => some (Nat.repr g.id)) "1" (by decide) (by decide)
  refine ⟨⟨by decide, ?_⟩, h.2.2.2.2⟩
  rw [h.1]
  decide

/-! ## The `VoiceRecorder` as an event-step machine

State fields mirror the instance fields of the class plus the two pieces of
display state its repeating callbacks write (the elapsed-time label and the
waveform canvas, the latter abstracted to a count of frames drawn).  The
`animationId` / `timerInterval` handles are modelled as the booleans "a
`requestAnimationFrame` callback is pending" / "the `setInterval` ticker is
active"; `cancelAnimationFrame` / `clearInterval` set them to `false`.  A
chunk is a `Nat` identifying one nonempty `dataavailable` payload; the blob
is the list of chunks it was assembled from (its MIME tag plays no role in
the claims).  The canvas and the time label are assumed present in the DOM
(the early returns of `startWaveform` / `startTimer` for a missing element
never fire on the real page). -/

structure RecState where
  audioChunks : List Nat
  audioBlob : Option (List Nat)
  isRecording : Bool
  uploadedUrl : Option String
  timerLabel : String
  startTime : Nat
  animPending : Bool
  timerActive : Bool
  drawCount : Nat
deriving DecidableEq, Repr

/-- `new VoiceRecorder()` plus the page's initial `0:00` label. -/
def RecState.init : RecState :=
  ⟨[], none, false, none, "0:00", 0, false, false, 0⟩

/-- `${mins}:${secs.toString().padStart(2, '0')}` for an elapsed-seconds
count. -/
def fmtTime (elapsed : Nat) : String :=
  let s := Nat.repr (elapsed % 60)
  Nat.repr (elapsed / 60) ++ ":" ++ (if s.length < 2 then "0" ++ s else s)

/-- Events the recorder reacts to.  `uploadReq resp` is a call to `upload()`
whose network outcome, were a request issued, would be `resp` (`none` for a
non-ok response or a thrown `fetch`).  `rafTick` / `timerTick now` are the
browser firing a pending animation frame / the interval ticker. -/
inductive REvent where
  | start (now : Nat)
  | dataAvail (c : Nat)
  | stopRec
  | uploadReq (resp : Option String)
  | clearRec
  | rafTick
  | timerTick (now : Nat)
deriving DecidableEq, Repr

/-- `start()`: reset the chunk list, set the recording flag and start
instant, then `startWaveform()` (whose inner `draw()` runs once at once:
the guard `isRecording` holds, so it requests the next frame and paints one
frame) and `startTimer()` (arming the interval). -/
def startFn (s : RecState) (now : Nat) : RecState :=
  { s with audioChunks := [], isRecording := true, startTime := now,
           animPending := true, drawCount := s.drawCount + 1, timerActive := true }

/-- `ondataavailable` with a nonempty payload: push the chunk. -/
def dataFn (s : RecState) (c : Nat) : RecState :=
  { s with audioChunks := s.audioChunks ++ [c] }

/-- `stop()`: halt the capture (the `onstop` callback assembles the
accumulated chunks into the artifact), clear the recording flag,
`stopWaveform()` (cancel any pending frame) and `stopTimer()` (clear the
interval). -/
def stopFn (s : RecState) : RecState :=
  { s with isRecording := false, audioBlob := some s.audioChunks,
           animPending := false, timerActive := false }

/-- `upload()`: returns `(state after, requests issued, returned value)`.
With no artifact it returns `null` at once and no request is made.  With an
artifact one request carrying the blob is posted; on success the URL is
stored and returned, on failure (`catch`) the state is unchanged and `null`
is returned. -/
def uploadFn (s : RecState) (resp : Option String) :
    RecState × List (List Nat × Option String) × Option String :=
  match s.audioBlob with
  | none => (s, [], none)
  | some b =>
    match resp with
    | some u => ({ s with uploadedUrl := some u }, [(b, some u)], some u)
    | none => (s, [(b, none)], none)

/-- `clear()`: discard chunks, artifact and stored URL, reset the label. -/
def clearFn (s : RecState) : RecState :=
  { s with audioChunks := [], audioBlob := none, uploadedUrl := none,
           timerLabel := "0:00" }

/-- A pending animation frame fires: the callback `draw` first consumes the
request; if recording has stopped it returns without painting or
re-requesting, otherwise it re-requests itself and paints a frame. -/
def rafTickFn (s : RecState) : RecState :=
  if s.animPending then
    if s.isRecording then { s with drawCount := s.drawCount + 1 }
    else { s with animPending := false }
  else s

/-- The interval ticker fires: when armed it rewrites the elapsed-time
label; a cleared interval never fires. -/
def timerTickFn (s : RecState) (now : Nat) : RecState :=
  if s.timerActive then { s with timerLabel := fmtTime ((now - s.startTime) / 1000) }
  else s

/-- One event step, also returning the upload requests it issued (each as
`(blob, response)`). -/
def recStep (s : RecState) : REvent → RecState × List (List Nat × Option String)
  | .start t => (startFn s t, [])
  | .dataAvail c => (dataFn s c, [])
  | .stopRec => (stopFn s, [])
  | .uploadReq r => ((uploadFn s r).1, (uploadFn s r).2.1)
  | .clearRec => (clearFn s, [])
  | .rafTick => (rafTickFn s, [])
  | .timerTick t => (timerTickFn s t, [])

/-- Run a list of events, accumulating all upload requests issued. -/
def recRun (p : RecState × List (List Nat × Option String)) :
    List REvent → RecState × List (List Nat × Option String)
  | [] => p
  | e :: es =>
    let q := recStep p.1 e
    recRun (q.1, p.2 ++ q.2) es

/-- The events that model nothing but time passing. -/
def isTickEvent : REvent → Bool
  | .rafTick => true
  | .timerTick _ => true
  | _ => false

/-! ## Claims about the `VoiceRecorder` -/

theorem tick_noop (s : RecState) (h1 : s.animPending = false)
    (h2 : s.timerActive = false) (e : REvent) (he : isTickEvent e = true) :
    recStep s e = (s, []) := by
  cases e <;> simp_all [isTickEvent, recStep, rafTickFn, timerTickFn]

theorem recRun_ticks_noop (ticks : List REvent) (s : RecState)
    (acc : List (List Nat × Option String)) (h1 : s.animPending = false)
    (h2 : s.timerActive = false) (hticks : ticks.all isTickEvent = true) :
    recRun (s, acc) ticks = (s, acc) := by
  induction ticks with
  | nil => rfl
  | cons e es ih =>
    rw [List.all_cons, Bool.and_eq_true] at hticks
    show recRun ((recStep s e).1, acc ++ (recStep s e).2) es = (s, acc)
    rw [tick_noop s h1 h2 e hticks.1]
    simpa using ih hticks.2

/-- **C8.** `stop()` cancels both repeating callbacks: immediately after it
the animation-frame request is cancelled and the interval ticker is
disarmed, and every subsequent sequence of pure time-passing events
(animation frames, interval ticks) leaves the state — in particular the
waveform frame count and the elapsed-time label — completely unchanged. -/
theorem stop_cancels_loops (s : RecState) (ticks : List REvent)
    (hticks : ticks.all isTickEvent = true) :
    (stopFn s).animPending = false ∧ (stopFn s).timerActive = false ∧
    (recRun (stopFn s, []) ticks).1 = stopFn s := by
  refine ⟨rfl, rfl, ?_⟩
  rw [recRun_ticks_noop ticks (stopFn s) [] rfl rfl hticks]

/-- Witness for C8: stop a live recording session, then let one animation
frame and two ticker firings pass — nothing changes. -/
theorem stop_cancels_loops_witness :
    ([REvent.rafTick, REvent.timerTick 5000, REvent.timerTick 9000].all
      isTickEvent = true) ∧
    (recRun (stopFn (startFn RecState.init 0), [])
      [REvent.rafTick, REvent.timerTick 5000, REvent.timerTick 9000]).1 =
      stopFn (startFn RecState.init 0) :=
  ⟨by decide, (stop_cancels_loops (startFn RecState.init 0)
    [REvent.rafTick, REvent.timerTick 5000, REvent.timerTick 9000]
    (by decide)).2.2⟩

theorem uploadFn_no_blob (s : RecState) (h : s.audioBlob = none)
    (r : Option String) : uploadFn s r = (s, [], none) := by
  unfold uploadFn
  rw [h]

theorem recRun_uploads_no_blob (resps : List (Option String)) (s : RecState)
    (acc : List (List Nat × Option String)) (h : s.audioBlob = none) :
    recRun (s, acc) (resps.map REvent.uploadReq) = (s, acc) := by
  induction resps with
  | nil => rfl
  | cons r rs ih =>
    show recRun ((recStep s (.uploadReq r)).1,
      acc ++ (recStep s (.uploadReq r)).2) (rs.map REvent.uploadReq) = (s, acc)
    simp only [recStep, uploadFn_no_blob s h r]
    simpa using ih

/-- **C7.** After `clear()` the elapsed-time label reads `0:00` and no
artifact exists; any `upload()` call from that state returns `null`, issues
no network request and leaves the state unchanged — hence any number of
subsequent `upload()` calls all return `null` with no request ever made. -/
theorem clear_then_upload_null (s : RecState) (resps : List (Option String)) :
    (clearFn s).timerLabel = "0:00" ∧ (clearFn s).audioBlob = none ∧
    (∀ r, uploadFn (clearFn s) r = (clearFn s, [], none)) ∧
    recRun (clearFn s, []) (resps.map REvent.uploadReq) = (clearFn s, []) :=
  ⟨rfl, rfl, fun r => uploadFn_no_blob (clearFn s) rfl r,
    recRun_uploads_no_blob resps (clearFn s) [] rfl⟩

/-- The claim of C4 as stated: whenever `uploadedUrl` is non-null it is the
URL some successful upload returned for the artifact that is current *at
that moment*. -/
def currentArtifactOk (s : RecState)
    (performed : List (List Nat × Option String)) : Prop :=
  ∀ u, s.uploadedUrl = some u → ∃ b, s.audioBlob = some b ∧ (b, some u) ∈ performed

/-- Counterexample to **C4** as stated: record chunk `1`, stop, upload
successfully (`url1`), then record chunk `2` and stop again.  Now
`uploadedUrl = some "url1"` but the current artifact is `[2]`, which was
never uploaded — `start()` resets the chunk list yet leaves `uploadedUrl`
untouched, and the second `stop()` replaces the artifact. -/
theorem uploadedUrl_current_artifact_counterexample :
    ¬ currentArtifactOk
      (recRun (RecState.init, [])
        [.start 0, .dataAvail 1, .stopRec, .uploadReq (some "url1"),
         .start 10, .dataAvail 2, .stopRec]).1
      (recRun (RecState.init, [])
        [.start 0, .dataAvail 1, .stopRec, .uploadReq (some "url1"),
         .start 10, .dataAvail 2, .stopRec]).2 := by
  intro h
  obtain ⟨b, hb, hmem⟩ := h "url1" (by decide)
  have hblob : (recRun (RecState.init, [])
      [.start 0, .dataAvail 1, .stopRec, .uploadReq (some "url1"),
       .start 10, .dataAvail 2, .stopRec]).1.audioBlob = some [2] := by decide
  rw [hblob] at hb
  have hb2 : b = [2] := (Option.some_inj.mp hb).symm
  subst hb2
  have hperf : (recRun (RecState.init, [])
      [.start 0, .dataAvail 1, .stopRec, .uploadReq (some "url1"),
       .start 10, .dataAvail 2, .stopRec]).2 = [([1], some "url1")] := by decide
  rw [hperf] at hmem
  simp at hmem

theorem recStep_urlInv (s : RecState) (acc : List (List Nat × Option String))
    (e : REvent) (h : ∀ u, s.uploadedUrl = some u → ∃ b, (b, some u) ∈ acc) :
    ∀ u, ((recStep s e).1).uploadedUrl = some u →
      ∃ b, (b, some u) ∈ acc ++ (recStep s e).2 := by
  intro u hu
  cases e with
  | start t =>
    obtain ⟨b, hb⟩ := h u hu
    exact ⟨b, by simpa [recStep] using hb⟩
  | dataAvail c =>
    obtain ⟨b, hb⟩ := h u hu
    exact ⟨b, by simpa [recStep] using hb⟩
  | stopRec =>
    obtain ⟨b, hb⟩ := h u hu
    exact ⟨b, by simpa [recStep] using hb⟩
  | clearRec => simp [recStep, clearFn] at hu
  | rafTick =>
    have hpres : (rafTickFn s).uploadedUrl = s.uploadedUrl := by
      unfold rafTickFn
      split
      · split <;> rfl
      · rfl
    simp only [recStep] at hu
    rw [hpres] at hu
    obtain ⟨b, hb⟩ := h u hu
    exact ⟨b, by simpa [recStep] using hb⟩
  | timerTick t =>
    have hpres : (timerTickFn s t).uploadedUrl = s.uploadedUrl := by
      unfold timerTickFn
      split <;> rfl
    simp only [recStep] at hu
    rw [hpres] at hu
    obtain ⟨b, hb⟩ := h u hu
    exact ⟨b, by simpa [recStep] using hb⟩
  | uploadReq r =>
    cases hblob : s.audioBlob with
    | none =>
      simp only [recStep, uploadFn_no_blob s hblob r] at hu ⊢
      obtain ⟨b, hb⟩ := h u hu
      exact ⟨b, by simpa using hb⟩
    | some b0 =>
      cases r with
      | some u0 =>
        simp only [recStep, uploadFn, hblob] at hu ⊢
        rw [Option.some_inj.mp hu]
        exact ⟨b0, by simp⟩
      | none =>
        simp only [recStep, uploadFn, hblob] at hu ⊢
        obtain ⟨b, hb⟩ := h u hu
        exact ⟨b, by simp [hb]⟩

theorem recRun_urlInv (events : List REvent) (s : RecState)
    (acc : List (List Nat × Option String))
    (h : ∀ u, s.uploadedUrl = some u → ∃ b, (b, some u) ∈ acc) :
    ∀ u, ((recRun (s, acc) events).1).uploadedUrl = some u →
      ∃ b, (b, some u) ∈ (recRun (s, acc) events).2 := by
  induction events generalizing s acc with
  | nil => exact h
  | cons e es ih => exact ih _ _ (recStep_urlInv s acc e h)

/-- **C4 amended.** In every reachable `VoiceRecorder` state, whenever
`uploadedUrl` is non-null it is the URL returned by a successful `upload()`
of the artifact that was current *at the time of that upload*; the URL can
however outlive that artifact, because `start()` does not reset
`uploadedUrl` and a later `stop()` replaces the artifact (see the
counterexample to the "current at that moment" reading). -/
theorem uploadedUrl_from_successful_upload (events : List REvent) (u : String)
    (h : ((recRun (RecState.init, []) events).1).uploadedUrl = some u) :
    ∃ b, (b, some u) ∈ (recRun (RecState.init, []) events).2 :=
  recRun_urlInv events RecState.init []
    (fun _ hu => by simp [RecState.init] at hu) u h

/-- Witness for the amended C4: after one record/stop/successful-upload
cycle, `uploadedUrl = some "u"` and the upload log indeed holds a
successful upload returning `"u"`. -/
theorem uploadedUrl_from_successful_upload_witness :
    ((recRun (RecState.init, [])
      [.start 0, .dataAvail 1, .stopRec, .uploadReq (some "u")]).1).uploadedUrl
        = some "u" ∧
    ∃ b, (b, some "u") ∈ (recRun (RecState.init, [])
      [.start 0, .dataAvail 1, .stopRec, .uploadReq (some "u")]).2 :=
  ⟨by decide, uploadedUrl_from_successful_upload
    [.start 0, .dataAvail 1, .stopRec, .uploadReq (some "u")] "u" (by decide)⟩

/-! ## The form submit handler (submission sequencer)

One invocation of the `submit` listener, after the browser's required-field
validation has let the event fire.  Inputs: the trigger button's state
before the click, a snapshot of the native form fields, the recorder's
current artifact, the uploader's current selection, and the network oracles
(the value `recorder.upload()` would return, the per-file outcomes of
`uploader.uploadAll()`, and the outcome of the final `/api/submit` POST).
The output records every storage request issued, the sequence of labels the
button was driven through, the submission POSTs issued with their exact
payloads, whether `alert` fired, the button's final state, where the page
navigated (if anywhere), and the form fields afterwards (the handler never
writes them, and on the failure path it does not navigate away, so they
survive for a retry). -/

/-- A storage request issued by the handler: the audio artifact with type
discriminator `"audio"`, or a selected file with type `"image"`. -/
inductive UploadReq where
  | audio (b : List Nat)
  | image (f : JFile)
deriving DecidableEq, Repr

/-- Outcome of the final `fetch('/api/submit')`: the response followed a
redirect, was plain `ok`, had a failure status, or the fetch itself threw. -/
inductive SubmitResponse where
  | redirected (url : String)
  | ok
  | errorStatus
  | networkError
deriving DecidableEq, Repr

structure BtnState where
  disabled : Bool
  label : String
deriving DecidableEq, Repr

structure SubmitInput where
  btn : BtnState
  formFields : List (String × String)
  audioBlob : Option (List Nat)
  audioResp : Option String
  files : List JFile
  imageResps : List (Option String)
  submitResp : SubmitResponse
deriving DecidableEq, Repr

structure SubmitTrace where
  requests : List UploadReq
  labels : List String
  posts : List (List (String × String))
  alerted : Bool
  finalBtn : BtnState
  navigatedTo : Option String
  finalFormFields : List (String × String)
deriving DecidableEq, Repr

/-- The submit listener, line by line: disable the button and show
`Uploading files...`; upload the recording if one exists (`null` means no
`audio-url`); if any images are selected show `Uploading images...` and run
`uploadAll()`; show `Sending...`; build the `FormData` from the native
fields, appending `audio-url` only for a truthy audio URL and `image-urls`
(comma-joined) only for a nonempty URL list; POST it; on a redirected
response follow it, on a plain ok response go to `/thank-you.html`, and on
anything else (`throw` / network error) alert, re-enable the button and set
its label back to the literal `Submit Project Inquiry`. -/
def submitHandler (inp : SubmitInput) : SubmitTrace :=
  let audioUrl : Option String :=
    match inp.audioBlob with
    | some _ => inp.audioResp
    | none => none
  let audioReqs : List UploadReq :=
    match inp.audioBlob with
    | some b => [UploadReq.audio b]
    | none => []
  let imageLabel : List String :=
    if inp.files.length > 0 then ["Uploading images..."] else []
  let imageReqs : List UploadReq := inp.files.map UploadReq.image
  let imageUrls : List String :=
    if inp.files.length > 0 then uploadAllUrls inp.files inp.imageResps else []
  let payload : List (String × String) :=
    inp.formFields
      ++ (match audioUrl with
          | some u => if u = "" then [] else [("audio-url", u)]
          | none => [])
      ++ (if imageUrls.length > 0 then
            [("image-urls", String.intercalate "," imageUrls)]
          else [])
  let tail : Bool × BtnState × Option String :=
    match inp.submitResp with
    | .redirected u => (false, ⟨true, "Sending..."⟩, some u)
    | .ok => (false, ⟨true, "Sending..."⟩, some "/thank-you.html")
    | .errorStatus => (true, ⟨false, "Submit Project Inquiry"⟩, none)
    | .networkError => (true, ⟨false, "Submit Project Inquiry"⟩, none)
  { requests := audioReqs ++ imageReqs
    labels := ["Uploading files..."] ++ imageLabel ++ ["Sending..."]
    posts := [payload]
    alerted := tail.1
    finalBtn := tail.2.1
    navigatedTo := tail.2.2
    finalFormFields := inp.formFields }

/-- **C5.** If the final POST fails on the network or returns a non-success,
non-redirect status, the handler alerts the user, re-enables the trigger
button, restores its original label (the page's `Submit Project Inquiry`),
stays on the page (no navigation, so field values survive) and leaves the
form fields untouched; exactly the one POST was attempted. -/
theorem submit_failure_recovery (inp : SubmitInput)
    (hfail : inp.submitResp = .errorStatus ∨ inp.submitResp = .networkError)
    (hlabel : inp.btn.label = "Submit Project Inquiry") :
    (submitHandler inp).alerted = true ∧
    (submitHandler inp).finalBtn.disabled = false ∧
    (submitHandler inp).finalBtn.label = inp.btn.label ∧
    (submitHandler inp).finalFormFields = inp.formFields ∧
    (submitHandler inp).navigatedTo = none ∧
    (submitHandler inp).posts.length = 1 := by
  rcases hfail with h | h <;> simp [submitHandler, h, hlabel]

/-- Witness for C5: a concrete failing submission. -/
theorem submit_failure_recovery_witness :
    (SubmitInput.mk ⟨false, "Submit Project Inquiry"⟩ [("name", "Ada")]
        none none [⟨0, "image/png"⟩] [some "u0"] .errorStatus).submitResp
        = .errorStatus ∧
    (submitHandler (SubmitInput.mk ⟨false, "Submit Project Inquiry"⟩
        [("name", "Ada")] none none [⟨0, "image/png"⟩] [some "u0"]
        .errorStatus)).alerted = true ∧
    (submitHandler (SubmitInput.mk ⟨false, "Submit Project Inquiry"⟩
        [("name", "Ada")] none none [⟨0, "image/png"⟩] [some "u0"]
        .errorStatus)).finalBtn.disabled = false := by
  refine ⟨rfl, ?_, ?_⟩
  · exact (submit_failure_recovery _ (Or.inl rfl) rfl).1
  · exact (submit_failure_recovery _ (Or.inl rfl) rfl).2.1

/-- **C6.** A submission with no audio artifact and exactly two selected
images, both of whose uploads succeed, issues exactly one storage request
per image (two image requests, zero audio requests) and exactly one
submission POST, whose payload is the native fields plus a single
`image-urls` field joining the two URLs with a comma — and, provided the
native form has no field of either name, the payload carries `image-urls`
exactly once and no `audio-url` at all. -/
theorem submit_two_images_no_audio (inp : SubmitInput) (f1 f2 : JFile)
    (u1 u2 : String)
    (hb : inp.audioBlob = none)
    (hf : inp.files = [f1, f2])
    (hr : inp.imageResps = [some u1, some u2])
    (hkA : "audio-url" ∉ inp.formFields.map Prod.fst)
    (hkI : "image-urls" ∉ inp.formFields.map Prod.fst) :
    (submitHandler inp).requests = [UploadReq.image f1, UploadReq.image f2] ∧
    (submitHandler inp).posts =
      [inp.formFields ++ [("image-urls", String.intercalate "," [u1, u2])]] ∧
    "audio-url" ∉
      ((submitHandler inp).posts.headD []).map Prod.fst ∧
    ((submitHandler inp).posts.headD []).map Prod.fst =
      inp.formFields.map Prod.fst ++ ["image-urls"] ∧
    (((submitHandler inp).posts.headD []).map Prod.fst).count "image-urls" = 1 := by
  have hurls2 : uploadAllUrls [f1, f2] [some u1, some u2] = [u1, u2] := rfl
  have hpost : (submitHandler inp).posts =
      [inp.formFields ++ [("image-urls", String.intercalate "," [u1, u2])]] := by
    simp [submitHandler, hb, hf, hr, hurls2]
  refine ⟨by simp [submitHandler, hb, hf], hpost, ?_, ?_, ?_⟩
  · rw [hpost]
    simp only [List.headD_cons, List.map_append]
    intro hmem
    rcases List.mem_append.mp hmem with hmem | hmem
    · exact hkA hmem
    · simp only [List.map_cons, List.map_nil, List.mem_singleton] at hmem
      exact absurd hmem (by decide)
  · rw [hpost]
    simp
  · rw [hpost]
    simp only [List.headD_cons, List.map_append, List.map_cons, List.map_nil,
      List.count_append]
    rw [List.count_eq_zero.mpr hkI]
    simp

/-- Witness for C6: two concrete images, both uploads succeed. -/
theorem submit_two_images_no_audio_witness :
    (submitHandler (SubmitInput.mk ⟨false, "Submit Project Inquiry"⟩
        [("name", "Ada"), ("email", "a@b.c")] none none
        [⟨0, "image/png"⟩, ⟨1, "image/jpeg"⟩] [some "u0", some "u1"]
        (.redirected "/thank-you.html"))).requests =
      [UploadReq.image ⟨0, "image/png"⟩, UploadReq.image ⟨1, "image/jpeg"⟩] ∧
    (submitHandler (SubmitInput.mk ⟨false, "Submit Project Inquiry"⟩
        [("name", "Ada"), ("email", "a@b.c")] none none
        [⟨0, "image/png"⟩, ⟨1, "image/jpeg"⟩] [some "u0", some "u1"]
        (.redirected "/thank-you.html"))).posts =
      [[("name", "Ada"), ("email", "a@b.c"),
        ("image-urls", String.intercalate "," ["u0", "u1"])]] := by
  have h := submit_two_images_no_audio
    (SubmitInput.mk ⟨false, "Submit Project Inquiry"⟩
      [("name", "Ada"), ("email", "a@b.c")] none none
      [⟨0, "image/png"⟩, ⟨1, "image/jpeg"⟩] [some "u0", some "u1"]
      (.redirected "/thank-you.html"))
    ⟨0, "image/png"⟩ ⟨1, "image/jpeg"⟩ "u0" "u1"
    rfl rfl rfl (by decide) (by decide)
  exact ⟨h.1, h.2.1⟩

/-! ## The storage API handler (`api/upload.js`)

The extension choice on upload: strings are `List Char` here because the
claim is about splitting on dots.  `splitOnChar` is JavaScript
`String.prototype.split` with a single-character separator (it never returns
an empty array; an empty input yields `[""]`). -/

def splitOnChar (sep : Char) : List Char → List (List Char)
  | [] => [[]]
  | c :: rest =>
    if c = sep then [] :: splitOnChar sep rest
    else
      match splitOnChar sep rest with
      | [] => [[c]]
      | h :: t => (c :: h) :: t

/-- The filename-extension choice of the upload handler:
`type === 'audio' ? 'webm' : (file.originalFilename?.split('.').pop() || 'jpg')`.
`pop()` is the last element of the split (the split is never empty) and
`|| 'jpg'` replaces a falsy result — the empty string, or `undefined` when
`originalFilename` is null/undefined. -/
def uploadExtension (ty : List Char) (originalFilename : Option (List Char)) :
    List Char :=
  if ty = "audio".toList then "webm".toList
  else
    match originalFilename with
    | none => "jpg".toList
    | some s =>
      let seg := (splitOnChar '.' s).getLastD []
      if seg = [] then "jpg".toList else seg

theorem splitOnChar_ne_nil (sep : Char) (s : List Char) :
    splitOnChar sep s ≠ [] := by
  cases s with
  | nil => simp [splitOnChar]
  | cons c rest =>
    unfold splitOnChar
    by_cases hc : c = sep
    · simp [hc]
    · simp only [hc, if_false]
      split <;> simp

theorem splitOnChar_no_sep (sep : Char) (s : List Char) (h : sep ∉ s) :
    splitOnChar sep s = [s] := by
  induction s with
  | nil => rfl
  | cons c rest ih =>
    have hc : ¬ (c = sep) := fun hcs => h (by simp [hcs])
    have hr : splitOnChar sep rest = [rest] := ih (fun hm => h (by simp [hm]))
    unfold splitOnChar
    rw [hr]
    simp [hc]

theorem getLastD_irrel (t : List α) (ht : t ≠ []) (d1 d2 : α) :
    t.getLastD d1 = t.getLastD d2 := by
  cases t with
  | nil => exact absurd rfl ht
  | cons a t => rw [List.getLastD_cons, List.getLastD_cons]

theorem splitOnChar_length_ge_two (sep : Char) (l : List Char)
    (h : sep ∈ l) : 2 ≤ (splitOnChar sep l).length := by
  induction l with
  | nil => simp at h
  | cons c rest ih =>
    unfold splitOnChar
    by_cases hc : c = sep
    · rw [if_pos hc]
      have h1 : 0 < (splitOnChar sep rest).length :=
        List.length_pos.mpr (splitOnChar_ne_nil sep rest)
      simp only [List.length_cons]
      omega
    · rw [if_neg hc]
      have hmem : sep ∈ rest := by
        rcases List.mem_cons.mp h with h | h
        · exact absurd h.symm hc
        · exact h
      have h2 := ih hmem
      rcases hsplit : splitOnChar sep rest with _ | ⟨hh, tt⟩
      · exact absurd hsplit (splitOnChar_ne_nil sep rest)
      · rw [hsplit] at h2
        simpa using h2

theorem splitOnChar_append_sep_getLastD (sep : Char) (e : List Char)
    (he : sep ∉ e) (s : List Char) (d : List Char) :
    (splitOnChar sep (s ++ sep :: e)).getLastD d = e := by
  induction s generalizing d with
  | nil =>
    show (splitOnChar sep (sep :: e)).getLastD d = e
    unfold splitOnChar
    rw [if_pos rfl, splitOnChar_no_sep sep e he]
    simp [List.getLastD_cons]
  | cons c s ih =>
    show (splitOnChar sep (c :: (s ++ sep :: e))).getLastD d = e
    unfold splitOnChar
    by_cases hc : c = sep
    · rw [if_pos hc, List.getLastD_cons]
      exact ih []
    · rw [if_neg hc]
      have hlen : 2 ≤ (splitOnChar sep (s ++ sep :: e)).length :=
        splitOnChar_length_ge_two sep _ (by simp)
      rcases hsplit : splitOnChar sep (s ++ sep :: e) with _ | ⟨h, t⟩
      · exact absurd hsplit (splitOnChar_ne_nil sep _)
      · have ht : t ≠ [] := by
          rw [hsplit] at hlen
          intro h0
          rw [h0] at hlen
          simp at hlen
        have h2 := ih d
        rw [hsplit, List.getLastD_cons] at h2
        simp only [List.getLastD_cons]
        rw [getLastD_irrel t ht (c :: h) h]
        exact h2

/-- **C9.** The upload handler's stored-filename extension: for the type
discriminator `"audio"` it is always `"webm"`, whatever the original
filename was (the handler never consults the MIME type for the extension —
`file.mimetype` only becomes the blob's content type); for every other type
it is the last dot-separated segment of the original filename — a name with
no dot is its own single segment — and it defaults to `"jpg"` when that
segment is absent (no filename at all, or a name ending in a dot / empty,
whose last segment is empty). -/
theorem uploadExtension_spec :
    (∀ f, uploadExtension "audio".toList f = "webm".toList) ∧
    (∀ t, t ≠ "audio".toList → uploadExtension t none = "jpg".toList) ∧
    (∀ t s e, t ≠ "audio".toList → '.' ∉ e → e ≠ [] →
      uploadExtension t (some (s ++ '.' :: e)) = e) ∧
    (∀ t s, t ≠ "audio".toList → '.' ∉ s →
      uploadExtension t (some s) = if s = [] then "jpg".toList else s) ∧
    (∀ t s, t ≠ "audio".toList →
      uploadExtension t (some (s ++ ['.'])) = "jpg".toList) := by
  refine ⟨?_, ?_, ?_, ?_, ?_⟩
  · intro f
    simp [uploadExtension]
  · intro t ht
    unfold uploadExtension
    rw [if_neg ht]
  · intro t s e ht he hne
    simp only [uploadExtension, if_neg ht]
    rw [splitOnChar_append_sep_getLastD '.' e he s []]
    rw [if_neg hne]
  · intro t s ht hs
    simp only [uploadExtension, if_neg ht]
    rw [splitOnChar_no_sep '.' s hs]
    simp [List.getLastD_cons]
  · intro t s ht
    simp only [uploadExtension, if_neg ht]
    have h := splitOnChar_append_sep_getLastD '.' [] (by simp) s []
    simp only [List.append_nil] at h ⊢
    rw [h]
    simp

/-- Witness for C9: an audio upload of `voice.m4a` is stored as `webm`; an
image named `photo.png` keeps `png`; an image with no filename gets `jpg`. -/
theorem uploadExtension_spec_witness :
    uploadExtension "audio".toList (some "voice.m4a".toList) = "webm".toList ∧
    uploadExtension "image".toList
      (some ("photo".toList ++ '.' :: "png".toList)) = "png".toList ∧
    uploadExtension "image".toList none = "jpg".toList :=
  ⟨uploadExtension_spec.1 _,
   uploadExtension_spec.2.2.1 "image".toList "photo".toList "png".toList
     (by decide) (by decide) (by decide),
   uploadExtension_spec.2.1 "image".toList (by decide)⟩

/-! ## The submission API handler (`api/submit.js`)

`escapeHtml` applies six global single-character regex replacements in
sequence; `replaceChar` is one such pass.  `escapeChars` is the claim-side
description — one left-to-right pass mapping each character to its HTML
entity (`&` `<` `>` `"` `'` to entities, newline to `<br>`, all else kept) —
and is proved equal to the composition of the six passes. -/

def replaceChar (c : Char) (rep : List Char) : List Char → List Char
  | [] => []
  | d :: s => (if d = c then rep else [d]) ++ replaceChar c rep s

/-- `escapeHtml` on a (truthy) string: `.replace(/&/g,'&amp;')`,
then `/</g`, `/>/g`, `/"/g`, `/'/g` and finally `/\n/g → <br>`. -/
def escapeHtmlStr (s : List Char) : List Char :=
  replaceChar '\n' "<br>".toList
    (replaceChar '\'' "&#039;".toList
      (replaceChar '"' "&quot;".toList
        (replaceChar '>' "&gt;".toList
          (replaceChar '<' "&lt;".toList
            (replaceChar '&' "&amp;".toList s)))))

/-- `escapeHtml(text)`: `if (!text) return ''` — absent or empty input maps
to the empty string — else the six replacements. -/
def escapeHtml : Option (List Char) → List Char
  | none => []
  | some s => if s = [] then [] else escapeHtmlStr s

/-- The entity substitution for one character, as the spec describes it. -/
def htmlCharEntity (c : Char) : List Char :=
  if c = '&' then "&amp;".toList
  else if c = '<' then "&lt;".toList
  else if c = '>' then "&gt;".toList
  else if c = '"' then "&quot;".toList
  else if c = '\'' then "&#039;".toList
  else if c = '\n' then "<br>".toList
  else [c]

/-- One-pass character-by-character escaping (claim-side definition). -/
def escapeChars : List Char → List Char
  | [] => []
  | c :: s => htmlCharEntity c ++ escapeChars s

theorem replaceChar_append (c : Char) (rep a b : List Char) :
    replaceChar c rep (a ++ b) = replaceChar c rep a ++ replaceChar c rep b := by
  induction a with
  | nil => rfl
  | cons d a ih => simp [replaceChar, ih]

theorem escapeHtmlStr_append (a b : List Char) :
    escapeHtmlStr (a ++ b) = escapeHtmlStr a ++ escapeHtmlStr b := by
  simp [escapeHtmlStr, replaceChar_append]

theorem escapeHtmlStr_singleton (x : Char) :
    escapeHtmlStr [x] = htmlCharEntity x := by
  by_cases h1 : x = '&'
  · subst h1; decide
  · by_cases h2 : x = '<'
    · subst h2; decide
    · by_cases h3 : x = '>'
      · subst h3; decide
      · by_cases h4 : x = '"'
        · subst h4; decide
        · by_cases h5 : x = '\''
          · subst h5; decide
          · by_cases h6 : x = '\n'
            · subst h6; decide
            · simp [escapeHtmlStr, replaceChar, htmlCharEntity,
                h1, h2, h3, h4, h5, h6]

/-- The six sequential passes equal the single claim-side pass: no
replacement output is re-replaced by a later pass (the entity strings
contain none of the later patterns, and `<br>` is produced last). -/
theorem escapeHtmlStr_eq_escapeChars (s : List Char) :
    escapeHtmlStr s = escapeChars s := by
  induction s with
  | nil => rfl
  | cons x s ih =>
    have h : escapeHtmlStr (x :: s) = escapeHtmlStr [x] ++ escapeHtmlStr s := by
      have := escapeHtmlStr_append [x] s
      simpa using this
    rw [h, escapeHtmlStr_singleton, ih]
    rfl

/-! ### `formatEmailBody`

The flattened form-field object `data`, with one `Option (List Char)` per
field read by `formatEmailBody` (`none` models an absent key; JavaScript
field-name kebab-case maps to camelCase: `business-description` is
`businessDescription`, `audio-url` is `audioUrl`, and so on).  JavaScript
truthiness of a string-or-undefined value is `truthy`. -/

structure IntakeData where
  name : Option (List Char)
  email : Option (List Char)
  phone : Option (List Char)
  company : Option (List Char)
  businessDescription : Option (List Char)
  currentWebsite : Option (List Char)
  siteWorking : Option (List Char)
  siteFrustrations : Option (List Char)
  idealCustomer : Option (List Char)
  positioning : Option (List Char)
  leadSource : Option (List Char)
  conversionGoal : Option (List Char)
  projectType : Option (List Char)
  pagesNeeded : Option (List Char)
  features : Option (List Char)
  hasLogo : Option (List Char)
  hasPhotos : Option (List Char)
  hasCopy : Option (List Char)
  inspiration : Option (List Char)
  inspirationWhy : Option (List Char)
  timeline : Option (List Char)
  budget : Option (List Char)
  postLaunch : Option (List Char)
  additional : Option (List Char)
  referral : Option (List Char)
  audioUrl : Option (List Char)
  imageUrls : Option (List Char)

/-- JavaScript truthiness of a string field: present and nonempty. -/
def truthy : Option (List Char) → Bool
  | none => false
  | some s => !s.isEmpty

/-- The `sections` array literal of `formatEmailBody`, label for label. -/
def emailSections (d : IntakeData) :
    List (List Char × List (List Char × Option (List Char))) :=
  [("Contact Information".toList,
    [("Name".toList, d.name), ("Email".toList, d.email),
     ("Phone".toList, d.phone), ("Company".toList, d.company)]),
   ("About Their Business".toList,
    [("Business Description".toList, d.businessDescription),
     ("Current Website".toList, d.currentWebsite),
     ("What\x27s Working".toList, d.siteWorking),
     ("What\x27s NOT Working".toList, d.siteFrustrations),
     ("Ideal Customer".toList, d.idealCustomer),
     ("Market Positioning".toList, d.positioning)]),
   ("Project Details".toList,
    [("How Customers Find Them".toList, d.leadSource),
     ("Primary Conversion Goal".toList, d.conversionGoal),
     ("Project Type".toList, d.projectType),
     ("Pages Needed".toList, d.pagesNeeded),
     ("Features".toList, d.features)]),
   ("Assets & Content".toList,
    [("Has Logo".toList, d.hasLogo), ("Has Photos".toList, d.hasPhotos),
     ("Has Copy".toList, d.hasCopy)]),
   ("Design & Timeline".toList,
    [("Inspiration Sites".toList, d.inspiration),
     ("Why They Like Them".toList, d.inspirationWhy),
     ("Timeline".toList, d.timeline), ("Budget".toList, d.budget)]),
   ("After Launch".toList,
    [("Post-Launch Preference".toList, d.postLaunch)]),
   ("Additional Info".toList,
    [("Additional Details".toList, d.additional),
     ("Referral Source".toList, d.referral)])]

/-! The HTML fragments of the template literals, verbatim. -/

def emailHeader : List Char :=
  ("\n    <div style=\"font-family: -apple-system, BlinkMacSystemFont, \x27Segoe UI\x27, Roboto, sans-serif; max-width: 600px; margin: 0 auto;\">\n      <h1 style=\"color: #111827; border-bottom: 2px solid #e5e7eb; padding-bottom: 12px;\">New Project Inquiry</h1>\n  ").toList

def h2Pre : List Char :=
  ("<h2 style=\"color: #374151; font-size: 16px; margin-top: 24px; margin-bottom: 12px;\">").toList

def h2Post : List Char := ("</h2>").toList

def tableOpen : List Char :=
  ("<table style=\"width: 100%; border-collapse: collapse;\">").toList

def tableClose : List Char := ("</table>").toList

def rowPre : List Char :=
  ("\n          <tr>\n            <td style=\"padding: 8px 0; color: #6b7280; width: 140px; vertical-align: top;\">").toList

def rowMid : List Char :=
  ("</td>\n            <td style=\"padding: 8px 0; color: #111827;\">").toList

def rowPost : List Char := ("</td>\n          </tr>\n        ").toList

def audioPre : List Char :=
  ("\n      <h2 style=\"color: #374151; font-size: 16px; margin-top: 24px; margin-bottom: 12px;\">Voice Recording</h2>\n      <p style=\"color: #111827;\">\n        <a href=\"").toList

def audioPost : List Char :=
  ("\" style=\"color: #2563eb; text-decoration: underline;\">Listen to recording</a>\n      </p>\n    ").toList

def imagesHdrPre : List Char :=
  ("\n      <h2 style=\"color: #374151; font-size: 16px; margin-top: 24px; margin-bottom: 12px;\">Uploaded Images (").toList

def imagesHdrPost : List Char :=
  (")</h2>\n      <div style=\"display: flex; flex-wrap: wrap; gap: 8px;\">\n    ").toList

def imageItemPre : List Char := ("\n        <a href=\"").toList

def imageItemMid : List Char :=
  ("\" target=\"_blank\" style=\"display: inline-block;\">\n          <img src=\"").toList

def imageItemPost : List Char :=
  ("\" style=\"width: 120px; height: 80px; object-fit: cover; border-radius: 4px; border: 1px solid #e5e7eb;\">\n        </a>\n      ").toList

def imagesClose : List Char := ("</div>").toList

def emailFooter : List Char :=
  ("\n      <hr style=\"border: none; border-top: 1px solid #e5e7eb; margin-top: 32px;\">\n      <p style=\"color: #9ca3af; font-size: 12px;\">Submitted via intake.sailorskills.com</p>\n    </div>\n  ").toList

/-- One table row: emitted only for a truthy value, with the label verbatim
and the value through `escapeHtml`. -/
def renderRow (label : List Char) (v : Option (List Char)) : List Char :=
  if truthy v then rowPre ++ label ++ rowMid ++ escapeHtml v ++ rowPost else []

def renderRows : List (List Char × Option (List Char)) → List Char
  | [] => []
  | (label, v) :: rest => renderRow label v ++ renderRows rest

def renderSection (sec : List Char × List (List Char × Option (List Char))) :
    List Char :=
  h2Pre ++ sec.1 ++ h2Post ++ tableOpen ++ renderRows sec.2 ++ tableClose

def renderSections :
    List (List Char × List (List Char × Option (List Char))) → List Char
  | [] => []
  | sec :: rest => renderSection sec ++ renderSections rest

/-- The `if (data['audio-url'])` block, its URL through `escapeHtml`. -/
def audioSection (v : Option (List Char)) : List Char :=
  if truthy v then audioPre ++ escapeHtml v ++ audioPost else []

def natChars (n : Nat) : List Char := (Nat.repr n).toList

def imageItem (u : List Char) : List Char :=
  imageItemPre ++ escapeHtml (some u) ++ imageItemMid ++ escapeHtml (some u)
    ++ imageItemPost

def imageItems : List (List Char) → List Char
  | [] => []
  | u :: rest => imageItem u ++ imageItems rest

/-- The `if (data['image-urls'])` block: split the raw value on commas,
interpolate the count, and emit one anchor/img pair per URL, each URL
through `escapeHtml` in both attributes. -/
def imagesSection (v : Option (List Char)) : List Char :=
  if truthy v then
    imagesHdrPre ++ natChars (splitOnChar ',' (v.getD [])).length
      ++ imagesHdrPost ++ imageItems (splitOnChar ',' (v.getD []))
      ++ imagesClose
  else []

/-- `formatEmailBody(data)`: header, the seven sections in order, the
optional voice-recording block, the optional images block, the footer. -/
def formatEmailBody (d : IntakeData) : List Char :=
  emailHeader ++ renderSections (emailSections d) ++ audioSection d.audioUrl
    ++ imagesSection d.imageUrls ++ emailFooter

/-! ### The escaped-input template

`emailBodyFromEscaped` rebuilds the same HTML from values that have
*already* been escaped (`none` marks a falsy raw value); neither it nor its
helpers mention `escapeHtml`.  Claim C10 is the factorisation of
`formatEmailBody` through `escOpt` / `escImages`: every user-supplied value
embedded in the HTML reaches it only through `escapeHtml`. -/

def escOpt (v : Option (List Char)) : Option (List Char) :=
  if truthy v then some (escapeHtml v) else none

def escRows :
    List (List Char × Option (List Char)) → List (List Char × Option (List Char))
  | [] => []
  | (label, v) :: rest => (label, escOpt v) :: escRows rest

def escSections (secs : List (List Char × List (List Char × Option (List Char)))) :
    List (List Char × List (List Char × Option (List Char))) :=
  secs.map (fun sec => (sec.1, escRows sec.2))

def escImages (v : Option (List Char)) : Option (List (List Char)) :=
  if truthy v then
    some ((splitOnChar ',' (v.getD [])).map (fun u => escapeHtml (some u)))
  else none

def renderRowE (label : List Char) (ev : Option (List Char)) : List Char :=
  match ev with
  | some e => rowPre ++ label ++ rowMid ++ e ++ rowPost
  | none => []

def renderRowsE : List (List Char × Option (List Char)) → List Char
  | [] => []
  | (label, ev) :: rest => renderRowE label ev ++ renderRowsE rest

def renderSectionE (sec : List Char × List (List Char × Option (List Char))) :
    List Char :=
  h2Pre ++ sec.1 ++ h2Post ++ tableOpen ++ renderRowsE sec.2 ++ tableClose

def renderSectionsE :
    List (List Char × List (List Char × Option (List Char))) → List Char
  | [] => []
  | sec :: rest => renderSectionE sec ++ renderSectionsE rest

def audioSectionE (ev : Option (List Char)) : List Char :=
  match ev with
  | some e => audioPre ++ e ++ audioPost
  | none => []

def imageItemE (e : List Char) : List Char :=
  imageItemPre ++ e ++ imageItemMid ++ e ++ imageItemPost

def imageItemsE : List (List Char) → List Char
  | [] => []
  | e :: rest => imageItemE e ++ imageItemsE rest

def imagesSectionE (eus : Option (List (List Char))) : List Char :=
  match eus with
  | some es =>
    imagesHdrPre ++ natChars es.length ++ imagesHdrPost ++ imageItemsE es
      ++ imagesClose
  | none => []

def emailBodyFromEscaped
    (secsE : List (List Char × List (List Char × Option (List Char))))
    (audioE : Option (List Char)) (imagesE : Option (List (List Char))) :
    List Char :=
  emailHeader ++ renderSectionsE secsE ++ audioSectionE audioE
    ++ imagesSectionE imagesE ++ emailFooter

theorem renderRow_escaped (label : List Char) (v : Option (List Char)) :
    renderRow label v = renderRowE label (escOpt v) := by
  unfold renderRow renderRowE escOpt
  by_cases h : truthy v = true
  · rw [if_pos h, if_pos h]
  · rw [if_neg h, if_neg h]

theorem renderRows_escaped (rows : List (List Char × Option (List Char))) :
    renderRows rows = renderRowsE (escRows rows) := by
  induction rows with
  | nil => rfl
  | cons row rest ih =>
    cases row with
    | mk label v =>
      show renderRow label v ++ renderRows rest = _
      rw [renderRow_escaped, ih]
      rfl

theorem renderSections_escaped
    (secs : List (List Char × List (List Char × Option (List Char)))) :
    renderSections secs = renderSectionsE (escSections secs) := by
  induction secs with
  | nil => rfl
  | cons sec rest ih =>
    show renderSection sec ++ renderSections rest = _
    rw [ih]
    show _ = renderSectionE (sec.1, escRows sec.2) ++ _
    unfold renderSection renderSectionE
    rw [renderRows_escaped]
    rfl

theorem audioSection_escaped (v : Option (List Char)) :
    audioSection v = audioSectionE (escOpt v) := by
  unfold audioSection audioSectionE escOpt
  by_cases h : truthy v = true
  · rw [if_pos h, if_pos h]
  · rw [if_neg h, if_neg h]

theorem imageItems_escaped (us : List (List Char)) :
    imageItems us = imageItemsE (us.map (fun u => escapeHtml (some u))) := by
  induction us with
  | nil => rfl
  | cons u rest ih =>
    show imageItem u ++ imageItems rest = _
    rw [ih]
    rfl

theorem imagesSection_escaped (v : Option (List Char)) :
    imagesSection v = imagesSectionE (escImages v) := by
  unfold imagesSection imagesSectionE escImages
  by_cases h : truthy v = true
  · rw [if_pos h, if_pos h, imageItems_escaped]
    simp [List.length_map]
  · rw [if_neg h, if_neg h]

/-- **C10.** Every user-supplied value that `formatEmailBody` embeds in the
email HTML goes through `escapeHtml`: the body factors through the
escape-first template `emailBodyFromEscaped`, which receives only
already-escaped field values, the already-escaped audio URL and the
already-escaped image URLs and never calls `escapeHtml` itself.  And
`escapeHtml` behaves as claimed: absent and empty input give the empty
string, and on any other string it performs exactly the per-character
substitution `& < > " '` to entities and newline to `<br>`. -/
theorem formatEmailBody_escapes_all (d : IntakeData) :
    formatEmailBody d =
      emailBodyFromEscaped (escSections (emailSections d))
        (escOpt d.audioUrl) (escImages d.imageUrls) ∧
    escapeHtml none = [] ∧
    escapeHtml (some []) = [] ∧
    ∀ s, s ≠ [] → escapeHtml (some s) = escapeChars s := by
  refine ⟨?_, rfl, rfl, ?_⟩
  · unfold formatEmailBody emailBodyFromEscaped
    rw [renderSections_escaped, audioSection_escaped, imagesSection_escaped]
  · intro s hs
    show (if s = [] then [] else escapeHtmlStr s) = escapeChars s
    rw [if_neg hs, escapeHtmlStr_eq_escapeChars]

/-- Witness for C10's escaping conjunct at a concrete hostile input. -/
theorem formatEmailBody_escapes_all_witness :
    ("<b>".toList ≠ ([] : List Char)) ∧
    escapeHtml (some "<b>".toList) = "&lt;b&gt;".toList :=
  ⟨by decide, by
    rw [(formatEmailBody_escapes_all
      (IntakeData.mk none none none none none none none none none none none
        none none none none none none none none none none none none none none
        none none)).2.2.2 "<b>".toList (by decide)]
    decide⟩

end Intake
